import Mathlib

/-!
Verification of the TBA synchronization utilities of PARTs_WebAPI
(`src/tba/util.py`) against their natural-language specification.

The Python module is shallowly embedded: pure helpers become Lean
functions, the Django ORM state becomes an explicit `DB` record threaded
through each operation, network fetches become explicit arguments holding
the parsed response, and raising code returns `Except`.  The Django model
declarations (`scouting.models`, `tba.models`) are not part of the given
sources; where their unique-key behaviour matters it is modelled from the
spec (see the doc comments marked "Modelled from the spec").
-/

deriving instance DecidableEq for Except

namespace Tba

/-- Embedding of the scan performed by Python's `s.replace("frc", "")`
(util.py 534): every occurrence of the substring `"frc"` is removed,
scanning left to right without overlap. -/
def removeFrc : List Char → List Char
  | 'f' :: 'r' :: 'c' :: rest => removeFrc rest
  | ch :: rest => ch :: removeFrc rest
  | [] => []

/-- Embedding of `replace_frc_in_str` (util.py 524-534):
`return s.replace("frc", "")`. -/
def replace_frc_in_str (s : String) : String :=
  String.mk (removeFrc s.data)

/-- Test for an occurrence of `"frc"` in a character list; used to
characterise when `replace_frc_in_str` is a no-op. -/
def hasFrc : List Char → Bool
  | 'f' :: 'r' :: 'c' :: _ => true
  | _ :: rest => hasFrc rest
  | [] => false

/-- Result of `datetime.datetime.strptime(s, "%Y-%m-%d").astimezone(tz)`,
kept abstract as the raw date string paired with the zone name: the claims
never inspect the parsed value, only carry it around. -/
structure PyDateTime where
  raw : String
  tz : String
deriving DecidableEq

/-- Embedding of `datetime.datetime.strptime(date, "%Y-%m-%d").astimezone(pytz.timezone(tz))`
(util.py 141-146), abstracted to the pair of its inputs. -/
def strptime_astimezone (date : String) (tz : String) : PyDateTime :=
  { raw := date, tz := tz }

/-- Embedding of `datetime.datetime.fromtimestamp(t, pytz.timezone("America/New_York"))`
(util.py 438-439), abstracted to its input rendered with the fixed zone. -/
def fromtimestamp_ny (t : Int) : PyDateTime :=
  { raw := toString t, tz := "America/New_York" }

/-- Row of `scouting.models.Event` as used by util.py.  Modelled from the
spec: the model file is not under src/; its fields are those util.py reads
and writes, with `event_cd` the unique key ("upsert-by-unique-key (event
code, match key, team number)"). -/
structure Event where
  season : Nat
  event_cd : String
  date_st : PyDateTime
  date_end : PyDateTime
  event_nm : String
  event_url : Option String
  address : Option String
  city : Option String
  state_prov : Option String
  postal_code : Option String
  location_name : Option String
  gmaps_url : Option String
  webcast_url : String
  timezone : String
  current : String
  competition_page_active : String
  void_ind : String
deriving DecidableEq

/-- Row of `scouting.models.Team`.  Modelled from the spec: `team_no` is
the unique key. -/
structure Team where
  team_no : Nat
  team_nm : String
  void_ind : String
deriving DecidableEq

/-- Row of `scouting.models.CompetitionLevel` as used by util.py. -/
structure CompetitionLevel where
  comp_lvl_typ : String
  comp_lvl_typ_nm : String
  void_ind : String
deriving DecidableEq

/-- Row of `scouting.models.Match` as used by util.py; foreign keys are
held as the referenced unique keys (`event_cd`, `team_no`,
`comp_lvl_typ`).  Modelled from the spec: `match_key` is the unique key. -/
structure Match where
  match_key : String
  match_number : Nat
  event_cd : String
  red_one : Nat
  red_two : Nat
  red_three : Nat
  blue_one : Nat
  blue_two : Nat
  blue_three : Nat
  red_score : Option Int
  blue_score : Option Int
  comp_level : String
  time : Option PyDateTime
  void_ind : String
deriving DecidableEq

/-- Row of `tba.models.Message` as used by `save_message`. -/
structure Message where
  message_type : String
  message_data : String
deriving DecidableEq

/-- The relational state the utilities read and write: one list per table,
plus the Team-Event many-to-many link table as (team_no, event_cd) pairs. -/
structure DB where
  events : List Event
  teams : List Team
  team_event : List (Nat × String)
  matchs : List Match
  comp_levels : List CompetitionLevel
  messages : List Message
deriving DecidableEq

/-- Membership in the Team-Event link table (a Django
`team.event_set` row). -/
def linkMemB (links : List (Nat × String)) (tn : Nat) (cd : String) : Bool :=
  links.any (fun l => l.1 == tn && l.2 == cd)

/-- Parsed JSON body of the TBA event-detail endpoint as `get_tba_event`
reads it: `Error` is the explicit error field; `name`, `start_date`,
`end_date`, `key` and `webcasts` are indexed directly; the rest are read
with `.get` defaults. -/
structure TbaEventResponse where
  error : Option String
  name : String
  start_date : String
  end_date : String
  key : String
  timezone : Option String
  event_url : Option String
  gmaps_url : Option String
  address : Option String
  city : Option String
  state_prov : Option String
  postal_code : Option String
  location_name : Option String
  webcasts : List String
deriving DecidableEq

/-- Dictionary returned by `get_tba_event` (util.py 139-161). -/
structure EventData where
  event_nm : String
  date_st : PyDateTime
  date_end : PyDateTime
  event_cd : String
  event_url : Option String
  gmaps_url : Option String
  address : Option String
  city : Option String
  state_prov : Option String
  postal_code : Option String
  location_name : Option String
  timezone : String
  webcast_url : String
deriving DecidableEq

/-- Embedding of `get_tba_event` (util.py 111-161): raise the response's
explicit `Error` value when present, otherwise map the response fields
into the local schema.  The network call `requests.get` is replaced by the
already-parsed response argument.  The function performs no ORM call in
the source, hence its embedding does not touch the `DB` state. -/
def get_tba_event (resp : TbaEventResponse) : Except String EventData :=
  match resp.error with
  | some err => .error err
  | none =>
    let time_zone := match resp.timezone with
      | some tz => tz
      | none => "America/New_York"
    .ok {
      event_nm := resp.name
      date_st := strptime_astimezone resp.start_date time_zone
      date_end := strptime_astimezone resp.end_date time_zone
      event_cd := resp.key
      event_url := resp.event_url
      gmaps_url := resp.gmaps_url
      address := resp.address
      city := resp.city
      state_prov := resp.state_prov
      postal_code := resp.postal_code
      location_name := resp.location_name
      timezone := resp.timezone.getD "America/New_York"
      webcast_url := match resp.webcasts with
        | [] => ""
        | ch :: _ => ch }

/-- Element of the team list returned by `get_tba_event_teams`
(util.py 183): `team_no` and `team_nm`. -/
structure TbaTeam where
  team_no : Nat
  team_nm : String
deriving DecidableEq

/-- Status lines the synchronization functions concatenate into their
return message; each constructor is one `messages +=` statement of
util.py and `render` below reproduces its exact text. -/
inductive Line where
  | noAddEvent (event_cd : String)
  | addEvent (event_cd : String)
  | removeTeam (team_no : Nat) (team_nm : String) (event_cd : String)
  | addTeam (team_no : Nat) (team_nm : String)
  | noAddTeam (team_no : Nat) (team_nm : String)
  | linkTeam (team_no : Nat) (team_nm : String) (event_cd : String)
  | noLinkTeam (team_no : Nat) (team_nm : String) (event_cd : String)
  | updateMatch (event_nm : String) (comp_lvl_typ_nm : String) (match_number : Nat) (match_key : String)
  | addMatch (event_nm : String) (comp_lvl_typ_nm : String) (match_number : Nat) (match_key : String)
  | errorLine (event_nm : String) (match_number : Nat) (err : String)
deriving DecidableEq

/-- Text of each status line, exactly as util.py formats it. -/
def Line.render : Line → String
  | .noAddEvent cd => "(NO ADD) Already have event: " ++ cd ++ "\n"
  | .addEvent cd => "(ADD) Added event: " ++ cd ++ "\n"
  | .removeTeam tn nm cd =>
      "(REMOVE) Removed team: " ++ toString tn ++ " " ++ nm ++ " from event: " ++ cd ++ "\n"
  | .addTeam tn nm => "(ADD) Added team: " ++ toString tn ++ " " ++ nm ++ "\n"
  | .noAddTeam tn nm => "(NO ADD) Already have team: " ++ toString tn ++ " " ++ nm ++ "\n"
  | .linkTeam tn nm cd =>
      "(LINK) Added team: " ++ toString tn ++ " " ++ nm ++ " to event: " ++ cd ++ "\n"
  | .noLinkTeam tn nm cd =>
      "(NO LINK) Team: " ++ toString tn ++ " " ++ nm ++ " already at event: " ++ cd ++ "\n"
  | .updateMatch enm cnm n k =>
      "(UPDATE) " ++ enm ++ " " ++ cnm ++ " " ++ toString n ++ " " ++ k ++ "\n"
  | .addMatch enm cnm n k =>
      "(ADD) " ++ enm ++ " " ++ cnm ++ " " ++ toString n ++ " " ++ k ++ "\n"
  | .errorLine enm n e =>
      "(ERROR) " ++ enm ++ " " ++ toString n ++ " " ++ e ++ "\n"

/-- Concatenation of rendered lines: the cumulative `messages` string
built by the `messages +=` statements. -/
def renderLines : List Line → String
  | [] => ""
  | l :: ls => l.render ++ renderLines ls

/-- Whether a line reports an added record (`"(ADD) Added event"`,
`"(ADD) Added team"` or the `"(ADD)"` match line). -/
def Line.isAddB : Line → Bool
  | .addEvent _ => true
  | .addTeam _ _ => true
  | .addMatch _ _ _ _ => true
  | _ => false

/-- Whether a line is the `"(UPDATE)"` match line. -/
def Line.isUpdateMatchB : Line → Bool
  | .updateMatch _ _ _ _ => true
  | _ => false

/-- Django `save()` on an Event with its primary key set: update the row
with that unique key in place. -/
def saveEvent (db : DB) (e : Event) : DB :=
  { db with events := db.events.map (fun x => if x.event_cd == e.event_cd then e else x) }

/-- Fresh Event row built by the `Event(...)` constructor call of
util.py 214-222; the fields the constructor does not pass start out
empty. -/
def newEventRow (season : Nat) (data : EventData) : Event :=
  { season := season
    event_cd := data.event_cd
    date_st := data.date_st
    date_end := data.date_end
    event_nm := ""
    event_url := none
    address := none
    city := none
    state_prov := none
    postal_code := none
    location_name := none
    gmaps_url := none
    webcast_url := ""
    timezone := ""
    current := "n"
    competition_page_active := "n"
    void_ind := "n" }

/-- Embedding of the try/except of util.py 206-225: get the event by
`event_cd`, clearing the void indicator and refreshing the dates on a
hit; on `Event.DoesNotExist` insert a fresh row with
`save(force_insert=True)`. -/
def event_get_or_create (season : Nat) (data : EventData) (db : DB) :
    Event × DB × Line :=
  match db.events.find? (fun e => e.event_cd == data.event_cd) with
  | some event =>
    ({ event with void_ind := "n", date_st := data.date_st, date_end := data.date_end },
     db, Line.noAddEvent data.event_cd)
  | none =>
    let event := newEventRow season data
    (event, { db with events := db.events ++ [event] }, Line.addEvent data.event_cd)

/-- Field assignments of util.py 227-236, common to both branches. -/
def event_fields_update (data : EventData) (ev : Event) : Event :=
  { ev with
    event_nm := data.event_nm
    event_url := data.event_url
    address := data.address
    city := data.city
    state_prov := data.state_prov
    postal_code := data.postal_code
    location_name := data.location_name
    gmaps_url := data.gmaps_url
    webcast_url := data.webcast_url
    timezone := data.timezone }

/-- Embedding of util.py 206-237: get-or-create the event, assign the
remaining mutable fields, and `event.save()`. -/
def event_upsert (season : Nat) (data : EventData) (db : DB) : Event × DB × Line :=
  let step := event_get_or_create season data db
  let event1 := event_fields_update data step.1
  (event1, saveEvent step.2.1 event1, step.2.2)

/-- Body of the removal loop (util.py 243-245):
`team.event_set.remove(event)` deletes that team's link rows for the
event, and a `(REMOVE)` line is appended. -/
def remove_team_link (event_cd : String) (acc : List Line × DB) (t : Team) :
    List Line × DB :=
  (acc.1 ++ [Line.removeTeam t.team_no t.team_nm event_cd],
   { acc.2 with team_event :=
      acc.2.team_event.filter (fun l => !(l.1 == t.team_no && l.2 == event_cd)) })

/-- Embedding of util.py 239-245: the queryset of teams linked to the
event whose number is not in the reported roster, evaluated once; each is
then unlinked with a `(REMOVE)` line. -/
def remove_dropped_teams (event_cd : String) (roster : List Nat) (db : DB) :
    List Line × DB :=
  let toRemove := db.teams.filter
    (fun t => !(roster.contains t.team_no) && linkMemB db.team_event t.team_no event_cd)
  toRemove.foldl (remove_team_link event_cd) ([], db)

/-- Embedding of the loop body util.py 247-264 for one reported team:
`Team(...).save(force_insert=True)` succeeds when no row has that team
number and raises `IntegrityError` otherwise (modelled from the spec:
`team_no` is the unique key), in which case the existing row is fetched;
then `team.event_set.add(event)` links the team, a no-op on an existing
link — the Django many-to-many `add` does not raise, so the source's
`(NO LINK)` except-branch is dead and the `(LINK)` line is always
emitted. -/
def add_roster_team (event_cd : String) (acc : List Line × DB) (t_ : TbaTeam) :
    List Line × DB :=
  let db := acc.2
  let step : Team × DB × List Line :=
    match db.teams.find? (fun t => t.team_no == t_.team_no) with
    | none =>
      let team : Team := { team_no := t_.team_no, team_nm := t_.team_nm, void_ind := "n" }
      (team, { db with teams := db.teams ++ [team] },
       acc.1 ++ [Line.addTeam t_.team_no t_.team_nm])
    | some team =>
      (team, db, acc.1 ++ [Line.noAddTeam t_.team_no t_.team_nm])
  let team := step.1
  let db2 := step.2.1
  let db3 :=
    if linkMemB db2.team_event team.team_no event_cd then db2
    else { db2 with team_event := db2.team_event ++ [(team.team_no, event_cd)] }
  (step.2.2 ++ [Line.linkTeam t_.team_no t_.team_nm event_cd], db3)

/-- Embedding of `sync_event` (util.py 188-266).  The two network fetches
that open the source function (`get_tba_event`, `get_tba_event_teams`)
are replaced by the `data` and `teams` arguments holding their results;
the rest follows the source: upsert the event, unlink dropped teams, then
insert-or-reuse and link each reported team. -/
def sync_event (season : Nat) (data : EventData) (teams : List TbaTeam) (db : DB) :
    List Line × DB :=
  let up := event_upsert season data db
  let rem := remove_dropped_teams data.event_cd (teams.map (fun t => t.team_no)) up.2.1
  let add := teams.foldl (add_roster_team data.event_cd) ([], rem.2)
  (up.2.2 :: rem.1 ++ add.1, add.2)

/-- Exceptions util.py can raise while saving a match, with the text
Django gives each (`Model.DoesNotExist` renders as
"... matching query does not exist."). -/
inductive PyErr where
  | doesNotExist (model : String)
  | valueError (literal : String)
  | indexError
deriving DecidableEq

/-- Exception text, as interpolated into the `(ERROR)` line. -/
def pyErrStr : PyErr → String
  | .doesNotExist m => m ++ " matching query does not exist."
  | .valueError s => "invalid literal for int() with base 10: " ++ s
  | .indexError => "list index out of range"

/-- Python list indexing `l[i]`: raises IndexError when out of range. -/
def pyIndex (l : List String) (i : Nat) : Except PyErr String :=
  match l.get? i with
  | some x => .ok x
  | none => .error .indexError

/-- Python `int(s)` coercion of a decimal string, as Django applies it
when a string value is filtered against the integer `team_no` column:
all-digit strings parse, anything else raises ValueError. -/
def pyToNat? (s : String) : Option Nat :=
  if s.data ≠ [] ∧ s.data.all (fun ch => ch.isDigit) then
    some (s.data.foldl (fun n ch => n * 10 + (ch.toNat - 48)) 0)
  else none

/-- Embedding of `Team.objects.get(Q(team_no=replace_frc_in_str(key)) & Q(void_ind="n"))`
(util.py 408-431): the frc-stripped key is coerced to the integer column
(ValueError on a non-numeric literal) and the matching non-void row is
fetched, `Team.DoesNotExist` when there is none. -/
def team_objects_get (db : DB) (key : String) : Except PyErr Team :=
  match pyToNat? (replace_frc_in_str key) with
  | none => .error (.valueError (replace_frc_in_str key))
  | some n =>
    match db.teams.find? (fun t => t.team_no == n && t.void_ind == "n") with
    | some t => .ok t
    | none => .error (.doesNotExist "Team")

/-- One alliance entry of a TBA match payload: `team_keys` indexed
directly, `score` read with `.get("score", None)`. -/
structure TbaAlliance where
  team_keys : List String
  score : Option Int
deriving DecidableEq

/-- Parsed JSON of one TBA match as `save_tba_match` reads it. -/
structure TbaMatch where
  key : String
  match_number : Option Nat
  event_key : String
  comp_level : Option String
  red : TbaAlliance
  blue : TbaAlliance
  time : Option Int
deriving DecidableEq

/-- Values resolved by the lookup half of `save_tba_match`
(util.py 405-444) before any write happens. -/
structure ResolvedMatch where
  event : Event
  match_number : Nat
  red_one : Team
  red_two : Team
  red_three : Team
  blue_one : Team
  blue_two : Team
  blue_three : Team
  red_score : Option Int
  blue_score : Option Int
  comp_level : CompetitionLevel
  time : Option PyDateTime
  match_key : String
deriving DecidableEq

/-- Django `Model.objects.get` by unique key: the row or `DoesNotExist`. -/
def getOrRaise {α : Type} (found : Option α) (e : PyErr) : Except PyErr α :=
  match found with
  | some x => .ok x
  | none => .error e

/-- Embedding of the lookup half of `save_tba_match` (util.py 405-444):
event by `event_cd`, the six alliance teams through `replace_frc_in_str`,
the competition level by its type tag (default `" "`), scores via `.get`,
and the scheduled time, `None` when the payload's `time` is falsy
(absent/null or 0). -/
def resolve_tba_match (m : TbaMatch) (db : DB) : Except PyErr ResolvedMatch := do
  let event ← getOrRaise (db.events.find? (fun e => e.event_cd == m.event_key))
      (.doesNotExist "Event")
  let match_number := m.match_number.getD 0
  let red_one ← team_objects_get db (← pyIndex m.red.team_keys 0)
  let red_two ← team_objects_get db (← pyIndex m.red.team_keys 1)
  let red_three ← team_objects_get db (← pyIndex m.red.team_keys 2)
  let blue_one ← team_objects_get db (← pyIndex m.blue.team_keys 0)
  let blue_two ← team_objects_get db (← pyIndex m.blue.team_keys 1)
  let blue_three ← team_objects_get db (← pyIndex m.blue.team_keys 2)
  let comp_level ← getOrRaise
      (db.comp_levels.find?
        (fun c => c.comp_lvl_typ == m.comp_level.getD " " && c.void_ind == "n"))
      (.doesNotExist "CompetitionLevel")
  let time : Option PyDateTime :=
    match m.time with
    | some t => if t == 0 then none else some (fromtimestamp_ny t)
    | none => none
  .ok { event := event
        match_number := match_number
        red_one := red_one, red_two := red_two, red_three := red_three
        blue_one := blue_one, blue_two := blue_two, blue_three := blue_three
        red_score := m.red.score, blue_score := m.blue.score
        comp_level := comp_level
        time := time
        match_key := m.key }

/-- Field assignments of util.py 449-459: the mutable fields
`save_tba_match` writes on the update branch (`match_number` and the
event link are left untouched, the void indicator is cleared). -/
def match_fields_update (r : ResolvedMatch) (mt : Match) : Match :=
  { mt with
    red_one := r.red_one.team_no
    red_two := r.red_two.team_no
    red_three := r.red_three.team_no
    blue_one := r.blue_one.team_no
    blue_two := r.blue_two.team_no
    blue_three := r.blue_three.team_no
    red_score := r.red_score
    blue_score := r.blue_score
    comp_level := r.comp_level.comp_lvl_typ
    time := r.time
    void_ind := "n" }

/-- Fresh Match row built by the `Match(...)` constructor call of
util.py 464-479. -/
def newMatchRow (r : ResolvedMatch) : Match :=
  { match_key := r.match_key
    match_number := r.match_number
    event_cd := r.event.event_cd
    red_one := r.red_one.team_no
    red_two := r.red_two.team_no
    red_three := r.red_three.team_no
    blue_one := r.blue_one.team_no
    blue_two := r.blue_two.team_no
    blue_three := r.blue_three.team_no
    red_score := r.red_score
    blue_score := r.blue_score
    comp_level := r.comp_level.comp_lvl_typ
    time := r.time
    void_ind := "n" }

/-- Embedding of the write half of `save_tba_match` (util.py 446-483):
get the match by `match_key` and update its mutable fields in place, or
on `Match.DoesNotExist` insert a fresh row. -/
def upsert_tba_match (r : ResolvedMatch) (db : DB) : List Line × DB :=
  match db.matchs.find? (fun x => x.match_key == r.match_key) with
  | some mt =>
    ([Line.updateMatch r.event.event_nm r.comp_level.comp_lvl_typ_nm r.match_number r.match_key],
     { db with
       matchs := db.matchs.map (fun x => if x.match_key == r.match_key then match_fields_update r mt else x) })
  | none =>
    ([Line.addMatch r.event.event_nm r.comp_level.comp_lvl_typ_nm r.match_number r.match_key],
     { db with matchs := db.matchs ++ [newMatchRow r] })

/-- Embedding of `save_tba_match` (util.py 393-483): all lookups run
first; only when every one succeeds does the single write happen, so a
raising call leaves the state untouched. -/
def save_tba_match (m : TbaMatch) (db : DB) : Except PyErr (List Line × DB) :=
  (resolve_tba_match m db).map (fun r => upsert_tba_match r db)

/-- Loop of `sync_matches` (util.py 286-291): save each fetched match in
order, concatenating the returned messages; the first raising save stops
the loop and appends the `(ERROR)` line holding the current match number
and the exception text, leaving the state as the last successful save
left it. -/
def sync_matches_loop (event_nm : String) : List TbaMatch → DB → List Line × DB
  | [], db => ([], db)
  | m :: rest, db =>
    match save_tba_match m db with
    | .ok r =>
      let next := sync_matches_loop event_nm rest r.2
      (r.1 ++ next.1, next.2)
    | .error e =>
      ([Line.errorLine event_nm (m.match_number.getD 0) (pyErrStr e)], db)

/-- Embedding of `sync_matches` (util.py 269-292); the network fetch of
the event's matches is replaced by the `matches` argument. -/
def sync_matches (event : Event) (ms : List TbaMatch) (db : DB) : List Line × DB :=
  sync_matches_loop event.event_nm ms db

/-- Prefix run used to state C4: the lines and state after saving a list
of matches when every save succeeds, `none` when one raises. -/
def runMatchesOk : List TbaMatch → DB → Option (List Line × DB)
  | [], db => some ([], db)
  | m :: rest, db =>
    match save_tba_match m db with
    | .ok r => (runMatchesOk rest r.2).map (fun q => (r.1 ++ q.1, q.2))
    | .error _ => none

/-- Embedding of `save_message` (util.py 486-501): persist the message
with its data truncated by the slice `str(...)[:4000]`; the
`message_data` argument holds the `str()` rendering of the payload and
the slice keeps its first 4000 characters. -/
def save_message (message_type : String) (message_data : String) (db : DB) :
    Message × DB :=
  let msg : Message :=
    { message_type := message_type
      message_data := String.mk (message_data.data.take 4000) }
  (msg, { db with messages := db.messages ++ [msg] })

/-- Inbound webhook request as `verify_tba_webhook_call` reads it: the
parsed body `data` and the result of
`request.META.get("HTTP_X_TBA_HMAC", None)`. -/
structure WebhookRequest (α : Type) where
  data : α
  http_x_tba_hmac : Option String
deriving DecidableEq

/-- Embedding of `verify_tba_webhook_call` (util.py 504-521).  The two
library calls are abstracted as arguments: `json_dumps` stands for
`json.dumps(·, ensure_ascii=True)` (the canonical serialization of the
body) and `hmac_sha256_hexdigest secret msg` for
`hmac.new(secret.encode(), msg.encode(), sha256).hexdigest()`.  The
computed digest is compared against the header value, which is `None`
when the header is absent — and a string never equals `None`. -/
def verify_tba_webhook_call {α : Type} (json_dumps : α → String)
    (hmac_sha256_hexdigest : String → String → String)
    (secret : String) (req : WebhookRequest α) : Bool :=
  let json_str := json_dumps req.data
  let hmac_hex := hmac_sha256_hexdigest secret json_str
  some hmac_hex == req.http_x_tba_hmac

/-- Whether a non-void team row with this number exists. -/
def teamExistsActive (db : DB) (n : Nat) : Bool :=
  db.teams.any (fun t => t.team_no == n && t.void_ind == "n")

/-- Whether team `n` is linked (through the Team-Event table) to some
event of season `season`: the reading of "linked to the Event's season"
in the spec's invariant. -/
def teamLinkedToSeasonB (db : DB) (n : Nat) (season : Nat) : Bool :=
  db.events.any (fun e => e.season == season && linkMemB db.team_event n e.event_cd)

/-- Whether every team slot of a match references a team linked to the
match's event's season. -/
def matchSlotsLinkedB (db : DB) (mt : Match) : Bool :=
  match db.events.find? (fun e => e.event_cd == mt.event_cd) with
  | some e =>
    [mt.red_one, mt.red_two, mt.red_three, mt.blue_one, mt.blue_two, mt.blue_three].all
      (fun n => teamLinkedToSeasonB db n e.season)
  | none => false

/-- Lines the second run of `sync_event` emits for the roster: a
`(NO ADD)` and a `(LINK)` line per reported team. -/
def noAddLines (event_cd : String) : List TbaTeam → List Line
  | [] => []
  | t :: ts =>
    Line.noAddTeam t.team_no t.team_nm ::
      Line.linkTeam t.team_no t.team_nm event_cd :: noAddLines event_cd ts

/-- Concrete event data used by the witness instances. -/
def c2d : EventData :=
  { event_nm := "Hatboro", date_st := ⟨"2024-03-15", "America/New_York"⟩,
    date_end := ⟨"2024-03-17", "America/New_York"⟩, event_cd := "2024pa",
    event_url := none, gmaps_url := none, address := none, city := none,
    state_prov := none, postal_code := none, location_name := none,
    timezone := "America/New_York", webcast_url := "" }

/-- Concrete pre-existing event row used by the witness instances. -/
def c2ev : Event :=
  { season := 7, event_cd := "2024pa", date_st := ⟨"2024-01-01", "America/New_York"⟩,
    date_end := ⟨"2024-01-02", "America/New_York"⟩, event_nm := "Old",
    event_url := none, address := none, city := none, state_prov := none,
    postal_code := none, location_name := none, gmaps_url := none,
    webcast_url := "", timezone := "", current := "n",
    competition_page_active := "n", void_ind := "y" }

/-- Concrete state with teams 1, 2, 3 linked to the event. -/
def c2db : DB :=
  { events := [c2ev],
    teams := [⟨1, "A", "n"⟩, ⟨2, "B", "n"⟩, ⟨3, "C", "n"⟩],
    team_event := [(1, "2024pa"), (2, "2024pa"), (3, "2024pa")],
    matchs := [], comp_levels := [], messages := [] }

/-- Concrete event row for the season-linkage counterexample. -/
def c5ev : Event :=
  { season := 1
    event_cd := "2024x"
    date_st := ⟨"2024-03-15", "America/New_York"⟩
    date_end := ⟨"2024-03-17", "America/New_York"⟩
    event_nm := "TestEvent"
    event_url := none
    address := none
    city := none
    state_prov := none
    postal_code := none
    location_name := none
    gmaps_url := none
    webcast_url := ""
    timezone := "America/New_York"
    current := "n"
    competition_page_active := "n"
    void_ind := "n" }

/-- Concrete state with an event, six teams and a competition level, but
no team-event links: teams exist yet none is linked to the event's
season. -/
def c5db : DB :=
  { events := [c5ev]
    teams := [⟨1, "T1", "n"⟩, ⟨2, "T2", "n"⟩, ⟨3, "T3", "n"⟩,
      ⟨4, "T4", "n"⟩, ⟨5, "T5", "n"⟩, ⟨6, "T6", "n"⟩]
    team_event := []
    matchs := []
    comp_levels := [⟨"qm", "Qualification", "n"⟩]
    messages := [] }

/-- Concrete TBA match payload whose six teams all exist in `c5db`. -/
def c5m : TbaMatch :=
  { key := "2024x_qm1", match_number := some 1, event_key := "2024x",
    comp_level := some "qm",
    red := ⟨["frc1", "frc2", "frc3"], some 100⟩,
    blue := ⟨["frc4", "frc5", "frc6"], some 90⟩,
    time := some 1640000000 }

/-- Concrete TBA match payload referencing team 7, which has no row in
`c5db`: saving it raises `Team.DoesNotExist`. -/
def c4bad : TbaMatch :=
  { key := "2024x_qm2", match_number := some 2, event_key := "2024x",
    comp_level := some "qm",
    red := ⟨["frc1", "frc2", "frc7"], some 10⟩,
    blue := ⟨["frc4", "frc5", "frc6"], some 9⟩,
    time := some 0 }

/-- Result of saving `c5m` into `c5db` (the save succeeds). -/
def c5res : List Line × DB :=
  match save_tba_match c5m c5db with
  | .ok p => p
  | .error _ => ([], c5db)

theorem removeFrc_of_not_hasFrc :
    ∀ l : List Char, hasFrc l = false → removeFrc l = l := by
  intro l
  induction l using removeFrc.induct with
  | case1 rest ih =>
    intro h
    simp [hasFrc] at h
  | case2 ch rest hne ih =>
    intro h
    rw [removeFrc]
    · rw [hasFrc] at h
      · rw [ih h]
      · exact hne
    · exact hne
  | case3 =>
    intro _
    rfl

/-- C7 counterexample: `replace_frc_in_str` removes every occurrence of
`"frc"`, so on `"ffrcrc"` (which does not start with `"frc"`) it is not a
no-op, and it is not idempotent there: one application leaves `"frc"`, a
second leaves `""`. -/
theorem C7_counterexample :
    replace_frc_in_str (replace_frc_in_str "ffrcrc") ≠ replace_frc_in_str "ffrcrc" ∧
    replace_frc_in_str "ffrcrc" ≠ "ffrcrc" := by
  constructor
  · intro h
    exact absurd h (by decide)
  · intro h
    exact absurd h (by decide)

theorem removeFrc_length_le (l : List Char) : (removeFrc l).length ≤ l.length := by
  induction l using removeFrc.induct with
  | case1 rest ih =>
    rw [removeFrc]
    simp only [List.length_cons]
    omega
  | case2 ch rest hne ih =>
    rw [removeFrc]
    · simp only [List.length_cons]
      omega
    · exact hne
  | case3 => simp [removeFrc]

theorem removeFrc_length_lt (l : List Char) (h : hasFrc l = true) :
    (removeFrc l).length < l.length := by
  induction l using removeFrc.induct with
  | case1 rest ih =>
    rw [removeFrc]
    simp only [List.length_cons]
    have := removeFrc_length_le rest
    omega
  | case2 ch rest hne ih =>
    rw [hasFrc] at h
    · rw [removeFrc]
      · simp only [List.length_cons]
        have := ih h
        omega
      · exact hne
    · exact hne
  | case3 => simp [hasFrc] at h

/-- C7 (amended): `replace_frc_in_str("frc3492") = "3492"` and
`replace_frc_in_str("3492") = "3492"`; the function removes every
left-to-right non-overlapping occurrence of `"frc"` and is a no-op
exactly on the strings containing no occurrence of `"frc"` (it is not
idempotent in general, and not a no-op on every string merely lacking the
`"frc"` prefix). -/
theorem C7_replace_frc_in_str_amended :
    replace_frc_in_str "frc3492" = "3492" ∧
    replace_frc_in_str "3492" = "3492" ∧
    (∀ s : String, hasFrc s.data = false → replace_frc_in_str s = s) ∧
    (∀ s : String, hasFrc s.data = true → replace_frc_in_str s ≠ s) := by
  refine ⟨by decide, by decide, ?_, ?_⟩
  · intro s h
    unfold replace_frc_in_str
    rw [removeFrc_of_not_hasFrc s.data h]
  · intro s h hEq
    have hlen : (removeFrc s.data).length = s.data.length := by
      have := congrArg (fun q => q.data.length) hEq
      simpa [replace_frc_in_str] using this
    have := removeFrc_length_lt s.data h
    omega

/-- C1: `verify_tba_webhook_call` accepts exactly when the supplied
header digest equals the hex HMAC-SHA256 (abstracted as
`hmac_sha256_hexdigest`) of the canonical JSON serialization (abstracted
as `json_dumps`) of the request body under the shared secret; in
particular, under an injective digest function, a body whose canonical
serialization differs from the signed one, or any differing digest, is
rejected. -/
theorem C1_verify_tba_webhook_call :
    (∀ (α : Type) (json_dumps : α → String)
       (hmac_sha256_hexdigest : String → String → String)
       (secret : String) (req : WebhookRequest α),
      verify_tba_webhook_call json_dumps hmac_sha256_hexdigest secret req = true ↔
        req.http_x_tba_hmac =
          some (hmac_sha256_hexdigest secret (json_dumps req.data))) ∧
    (∀ (α : Type) (json_dumps : α → String)
       (hmac_sha256_hexdigest : String → String → String)
       (secret : String) (req : WebhookRequest α) (signed : String),
      Function.Injective (hmac_sha256_hexdigest secret) →
      req.http_x_tba_hmac = some (hmac_sha256_hexdigest secret signed) →
      json_dumps req.data ≠ signed →
      verify_tba_webhook_call json_dumps hmac_sha256_hexdigest secret req = false) := by
  have main : ∀ (α : Type) (jd : α → String) (hf : String → String → String)
      (sec : String) (req : WebhookRequest α),
      verify_tba_webhook_call jd hf sec req = true ↔
        req.http_x_tba_hmac = some (hf sec (jd req.data)) := by
    intro α jd hf sec req
    unfold verify_tba_webhook_call
    rw [beq_iff_eq]
    exact eq_comm
  refine ⟨main, ?_⟩
  intro α jd hf sec req signed hinj hhdr hne
  cases hv : verify_tba_webhook_call jd hf sec req with
  | false => rfl
  | true =>
    exfalso
    have := (main α jd hf sec req).mp hv
    rw [hhdr] at this
    have := hinj (Option.some.inj this).symm
    exact hne this

/-- C9: when the HMAC header is absent (`request.META.get` yields
`None`), `verify_tba_webhook_call` evaluates to `False` instead of
raising: the computed hex digest, a string, never equals `None`.  The
embedding is a total function, mirroring that the source raises no
exception on this path. -/
theorem C9_verify_missing_header {α : Type} (json_dumps : α → String)
    (hmac_sha256_hexdigest : String → String → String)
    (secret : String) (req : WebhookRequest α)
    (h : req.http_x_tba_hmac = none) :
    verify_tba_webhook_call json_dumps hmac_sha256_hexdigest secret req = false := by
  unfold verify_tba_webhook_call
  rw [h]
  rfl

/-- C9 witness: a concrete request with no HMAC header is rejected. -/
theorem C9_witness :
    verify_tba_webhook_call (fun n : Nat => toString n) (fun s m => s ++ m)
      "secret" { data := 5, http_x_tba_hmac := none } = false :=
  C9_verify_missing_header (fun n : Nat => toString n) (fun s m => s ++ m)
    "secret" { data := 5, http_x_tba_hmac := none } rfl

/-- C8: `save_message` appends exactly one row whose `message_data` is
the slice `[:4000]` of the given string form: data longer than 4000
characters is persisted truncated to exactly 4000 characters, and data
of at most 4000 characters is persisted unchanged. -/
theorem C8_save_message (message_type message_data : String) (db : DB) :
    ((save_message message_type message_data db).2.messages =
      db.messages ++ [(save_message message_type message_data db).1]) ∧
    ((save_message message_type message_data db).1.message_data.data =
      message_data.data.take 4000) ∧
    (4000 < message_data.length →
      (save_message message_type message_data db).1.message_data.length = 4000) ∧
    (message_data.length ≤ 4000 →
      (save_message message_type message_data db).1.message_data = message_data) := by
  refine ⟨rfl, rfl, ?_, ?_⟩
  · intro h
    show (String.mk (message_data.data.take 4000)).length = 4000
    have : (message_data.data.take 4000).length = 4000 := by
      rw [List.length_take]
      have : 4000 ≤ message_data.data.length := le_of_lt h
      omega
    exact this
  · intro h
    show String.mk (message_data.data.take 4000) = message_data
    rw [List.take_of_length_le h]

/-- C8 witness: at a 4001-character body the persisted data has exactly
4000 characters, and a short body is persisted unchanged. -/
theorem C8_witness :
    (4000 < (String.mk (List.replicate 4001 'x')).length ∧
      (save_message "test" (String.mk (List.replicate 4001 'x'))
        { events := [], teams := [], team_event := [], matchs := [],
          comp_levels := [], messages := [] }).1.message_data.length = 4000) ∧
    ((String.mk ['h', 'i']).length ≤ 4000 ∧
      (save_message "test" (String.mk ['h', 'i'])
        { events := [], teams := [], team_event := [], matchs := [],
          comp_levels := [], messages := [] }).1.message_data = String.mk ['h', 'i']) := by
  constructor
  · have h : 4000 < (String.mk (List.replicate 4001 'x')).length := by
      show 4000 < (List.replicate 4001 'x').length
      rw [List.length_replicate]
      omega
    exact ⟨h, (C8_save_message "test" (String.mk (List.replicate 4001 'x'))
      { events := [], teams := [], team_event := [], matchs := [],
        comp_levels := [], messages := [] }).2.2.1 h⟩
  · have h : (String.mk ['h', 'i']).length ≤ 4000 := by
      show (['h', 'i'] : List Char).length ≤ 4000
      simp only [List.length_cons, List.length_nil]
      omega
    exact ⟨h, (C8_save_message "test" (String.mk ['h', 'i'])
      { events := [], teams := [], team_event := [], matchs := [],
        comp_levels := [], messages := [] }).2.2.2 h⟩

/-- C6: when the response carries a non-null `Error` field,
`get_tba_event` raises with exactly that text; otherwise it returns the
mapped event record (name and key taken from the response) without
raising.  The source function performs no database write on either path,
which the embedding reflects by not taking a `DB` at all. -/
theorem C6_get_tba_event (resp : TbaEventResponse) :
    (∀ err : String, resp.error = some err → get_tba_event resp = Except.error err) ∧
    (resp.error = none →
      ∃ d : EventData, get_tba_event resp = Except.ok d ∧
        d.event_nm = resp.name ∧ d.event_cd = resp.key) := by
  constructor
  · intro err herr
    unfold get_tba_event
    rw [herr]
  · intro hnone
    unfold get_tba_event
    rw [hnone]
    exact ⟨_, rfl, rfl, rfl⟩

theorem find?_map_if {α : Type} (p : α → Bool) (e : α) (hpe : p e = true) (l : List α) :
    (l.map (fun x => if p x then e else x)).find? p =
      if (l.find? p).isSome then some e else none := by
  induction l with
  | nil => rfl
  | cons a l ih =>
    by_cases h : p a = true
    · simp [List.find?_cons, h, hpe]
    · have h' : p a = false := by simpa using h
      simp [List.find?_cons, h', hpe, ih]

theorem map_if_of_find?_none {α : Type} (p : α → Bool) (e : α) (l : List α)
    (hl : l.find? p = none) : l.map (fun x => if p x then e else x) = l := by
  have hall := List.find?_eq_none.mp hl
  conv_rhs => rw [← List.map_id l]
  apply List.map_congr_left
  intro a ha
  have : p a = false := by simpa using hall a ha
  simp [this]

theorem map_if_idem {α : Type} (p : α → Bool) (e : α) (hpe : p e = true) (l : List α) :
    (l.map (fun x => if p x then e else x)).map (fun x => if p x then e else x) =
      l.map (fun x => if p x then e else x) := by
  rw [List.map_map]
  apply List.map_congr_left
  intro a _
  by_cases h : p a = true
  · simp [Function.comp, h, hpe]
  · have h' : p a = false := by simpa using h
    simp [Function.comp, h']

theorem linkMemB_iff (links : List (Nat × String)) (tn : Nat) (cd : String) :
    linkMemB links tn cd = true ↔ (tn, cd) ∈ links := by
  unfold linkMemB
  rw [List.any_eq_true]
  constructor
  · rintro ⟨l, hl, hp⟩
    simp only [Bool.and_eq_true] at hp
    obtain ⟨hp1, hp2⟩ := hp
    obtain ⟨x, y⟩ := l
    have hx : x = tn := eq_of_beq (by simpa using hp1)
    have hy : y = cd := eq_of_beq (by simpa using hp2)
    rw [hx, hy] at hl
    exact hl
  · intro h
    exact ⟨(tn, cd), h, by simp⟩

theorem saveEvent_find? (db : DB) (e : Event) :
    (saveEvent db e).events.find? (fun x => x.event_cd == e.event_cd) =
      if (db.events.find? (fun x => x.event_cd == e.event_cd)).isSome
        then some e else none := by
  unfold saveEvent
  exact find?_map_if _ e (by simp) db.events

theorem saveEvent_saveEvent (db : DB) (e : Event) :
    saveEvent (saveEvent db e) e = saveEvent db e := by
  unfold saveEvent
  simp only
  congr 1
  exact map_if_idem _ e (by simp) db.events

theorem event_fields_update_event_cd (d : EventData) (ev : Event) :
    (event_fields_update d ev).event_cd = ev.event_cd := rfl

theorem event_get_or_create_of_found (s : Nat) (d : EventData) (db : DB) (ev : Event)
    (h : db.events.find? (fun e => e.event_cd == d.event_cd) = some ev) :
    event_get_or_create s d db =
      ({ ev with void_ind := "n", date_st := d.date_st, date_end := d.date_end },
       db, Line.noAddEvent d.event_cd) := by
  unfold event_get_or_create
  rw [h]

theorem event_get_or_create_of_missing (s : Nat) (d : EventData) (db : DB)
    (h : db.events.find? (fun e => e.event_cd == d.event_cd) = none) :
    event_get_or_create s d db =
      (newEventRow s d, { db with events := db.events ++ [newEventRow s d] },
       Line.addEvent d.event_cd) := by
  unfold event_get_or_create
  rw [h]

theorem event_upsert_event_cd (s : Nat) (d : EventData) (db : DB) :
    (event_upsert s d db).1.event_cd = d.event_cd := by
  unfold event_upsert
  cases h : db.events.find? (fun e => e.event_cd == d.event_cd) with
  | none =>
    rw [event_get_or_create_of_missing s d db h]
    rfl
  | some ev =>
    rw [event_get_or_create_of_found s d db ev h]
    show ev.event_cd = d.event_cd
    exact eq_of_beq (by simpa using List.find?_some h)

theorem event_upsert_fixed_fields (s : Nat) (d : EventData) (db : DB) :
    (event_upsert s d db).1.void_ind = "n" ∧
    (event_upsert s d db).1.date_st = d.date_st ∧
    (event_upsert s d db).1.date_end = d.date_end := by
  unfold event_upsert
  cases h : db.events.find? (fun e => e.event_cd == d.event_cd) with
  | none =>
    rw [event_get_or_create_of_missing s d db h]
    exact ⟨rfl, rfl, rfl⟩
  | some ev =>
    rw [event_get_or_create_of_found s d db ev h]
    exact ⟨rfl, rfl, rfl⟩

theorem event_upsert_db_shape (s : Nat) (d : EventData) (db : DB) :
    (event_upsert s d db).2.1 =
      { db with events := (event_upsert s d db).2.1.events } := by
  unfold event_upsert saveEvent
  cases h : db.events.find? (fun e => e.event_cd == d.event_cd) with
  | none =>
    rw [event_get_or_create_of_missing s d db h]
  | some ev =>
    rw [event_get_or_create_of_found s d db ev h]

theorem event_upsert_find? (s : Nat) (d : EventData) (db : DB) :
    (event_upsert s d db).2.1.events.find? (fun x => x.event_cd == d.event_cd) =
      some (event_upsert s d db).1 := by
  have hcd := event_upsert_event_cd s d db
  unfold event_upsert at hcd ⊢
  cases h : db.events.find? (fun e => e.event_cd == d.event_cd) with
  | some ev =>
    rw [event_get_or_create_of_found s d db ev h] at hcd ⊢
    simp only at hcd ⊢
    rw [← hcd, saveEvent_find?, hcd, h]
    rfl
  | none =>
    rw [event_get_or_create_of_missing s d db h] at hcd ⊢
    simp only at hcd ⊢
    rw [← hcd, saveEvent_find?, hcd]
    have : ({ db with events := db.events ++ [newEventRow s d] } : DB).events.find?
        (fun x => x.event_cd == d.event_cd) = some (newEventRow s d) := by
      show (db.events ++ [newEventRow s d]).find? (fun x => x.event_cd == d.event_cd) =
        some (newEventRow s d)
      rw [List.find?_append, h]
      simp [newEventRow]
    rw [this]
    rfl

theorem remove_fold_db (cd : String) (ts : List Team) (ls : List Line) (db : DB) :
    (ts.foldl (remove_team_link cd) (ls, db)).2 =
      { db with
        team_event := db.team_event.filter (fun l => !(ts.any (fun t => l.1 == t.team_no && l.2 == cd))) } := by
  induction ts generalizing ls db with
  | nil => simp
  | cons t ts ih =>
    rw [List.foldl_cons]
    have hstep : remove_team_link cd (ls, db) t =
        (ls ++ [Line.removeTeam t.team_no t.team_nm cd],
         { db with team_event := db.team_event.filter (fun l => !(l.1 == t.team_no && l.2 == cd)) }) := rfl
    rw [hstep, ih]
    simp only
    congr 1
    rw [List.filter_filter]
    apply List.filter_congr
    intro a _
    rw [List.any_cons, Bool.not_or, Bool.and_comm]

theorem remove_dropped_teams_noop (cd : String) (roster : List Nat) (db : DB)
    (h : ∀ t ∈ db.teams,
      roster.contains t.team_no = true ∨ linkMemB db.team_event t.team_no cd = false) :
    remove_dropped_teams cd roster db = ([], db) := by
  unfold remove_dropped_teams
  have hnil : db.teams.filter
      (fun t => !(roster.contains t.team_no) && linkMemB db.team_event t.team_no cd) = [] := by
    rw [List.filter_eq_nil_iff]
    intro t ht
    rcases h t ht with h1 | h1
    · simp only [h1, Bool.not_true, Bool.false_and]
      exact Bool.false_ne_true
    · simp only [h1, Bool.and_false]
      exact Bool.false_ne_true
  rw [hnil]
  rfl

theorem add_roster_team_eq (cd : String) (ls : List Line) (db : DB) (t_ : TbaTeam) :
    add_roster_team cd (ls, db) t_ =
      (ls ++ (add_roster_team cd ([], db) t_).1, (add_roster_team cd ([], db) t_).2) := by
  unfold add_roster_team
  cases h : db.teams.find? (fun t => t.team_no == t_.team_no) <;> simp [h]

theorem add_fold_append (cd : String) (ts : List TbaTeam) (ls : List Line) (db : DB) :
    ts.foldl (add_roster_team cd) (ls, db) =
      (ls ++ (ts.foldl (add_roster_team cd) ([], db)).1,
       (ts.foldl (add_roster_team cd) ([], db)).2) := by
  induction ts generalizing ls db with
  | nil => simp
  | cons t ts ih =>
    rw [List.foldl_cons, List.foldl_cons]
    rw [add_roster_team_eq cd ls db t]
    rw [ih]
    rw [show List.foldl (add_roster_team cd) (add_roster_team cd ([], db) t) ts =
        List.foldl (add_roster_team cd) ((add_roster_team cd ([], db) t).1,
          (add_roster_team cd ([], db) t).2) ts from rfl]
    rw [ih ((add_roster_team cd ([], db) t).1) ((add_roster_team cd ([], db) t).2)]
    simp [List.append_assoc]

theorem add_step_shape (cd : String) (db : DB) (t_ : TbaTeam) :
    (add_roster_team cd ([], db) t_).2 =
      { db with teams := (add_roster_team cd ([], db) t_).2.teams,
                team_event := (add_roster_team cd ([], db) t_).2.team_event } := by
  unfold add_roster_team
  cases h : db.teams.find? (fun t => t.team_no == t_.team_no) <;> simp [h] <;> split <;> rfl

theorem add_fold0_shape (cd : String) (ts : List TbaTeam) (db : DB) :
    (ts.foldl (add_roster_team cd) ([], db)).2 =
      { db with teams := (ts.foldl (add_roster_team cd) ([], db)).2.teams,
                team_event := (ts.foldl (add_roster_team cd) ([], db)).2.team_event } := by
  induction ts generalizing db with
  | nil => rfl
  | cons t ts ih =>
    rw [List.foldl_cons, add_fold_append cd ts _ _]
    simp only
    rw [ih ((add_roster_team cd ([], db) t).2), add_step_shape cd db t]

theorem add_step_find?_preserved (cd : String) (db : DB) (t_ : TbaTeam)
    (n : Nat) (t : Team)
    (h : db.teams.find? (fun x => x.team_no == n) = some t) :
    (add_roster_team cd ([], db) t_).2.teams.find? (fun x => x.team_no == n) = some t := by
  unfold add_roster_team
  cases hf : db.teams.find? (fun x => x.team_no == t_.team_no) with
  | some team => simp only [hf]; split <;> exact h
  | none =>
    simp only [hf]
    have happ : (db.teams ++
        [({ team_no := t_.team_no, team_nm := t_.team_nm, void_ind := "n" } : Team)]).find?
        (fun x => x.team_no == n) = some t := by
      rw [List.find?_append, h]
      rfl
    split <;> exact happ

theorem add_fold0_find?_preserved (cd : String) (ts : List TbaTeam) (db : DB)
    (n : Nat) (t : Team)
    (h : db.teams.find? (fun x => x.team_no == n) = some t) :
    (ts.foldl (add_roster_team cd) ([], db)).2.teams.find? (fun x => x.team_no == n) =
      some t := by
  induction ts generalizing db with
  | nil => exact h
  | cons u ts ih =>
    rw [List.foldl_cons, add_fold_append cd ts _ _]
    simp only
    exact ih _ (add_step_find?_preserved cd db u n t h)

theorem add_step_link_mono (cd : String) (db : DB) (t_ : TbaTeam)
    (tn : Nat) (ecd : String) (h : (tn, ecd) ∈ db.team_event) :
    (tn, ecd) ∈ (add_roster_team cd ([], db) t_).2.team_event := by
  unfold add_roster_team
  cases hf : db.teams.find? (fun x => x.team_no == t_.team_no) <;>
    · simp only [hf]
      split
      · exact h
      · exact List.mem_append_left _ h

theorem add_fold0_link_mono (cd : String) (ts : List TbaTeam) (db : DB)
    (tn : Nat) (ecd : String) (h : (tn, ecd) ∈ db.team_event) :
    (tn, ecd) ∈ (ts.foldl (add_roster_team cd) ([], db)).2.team_event := by
  induction ts generalizing db with
  | nil => exact h
  | cons u ts ih =>
    rw [List.foldl_cons, add_fold_append cd ts _ _]
    simp only
    exact ih _ (add_step_link_mono cd db u tn ecd h)

theorem add_step_link_new (cd : String) (db : DB) (t_ : TbaTeam) :
    (t_.team_no, cd) ∈ (add_roster_team cd ([], db) t_).2.team_event := by
  unfold add_roster_team
  cases hf : db.teams.find? (fun x => x.team_no == t_.team_no) with
  | none =>
    simp only [hf]
    split
    · next hl => exact (linkMemB_iff _ _ _).mp hl
    · exact List.mem_append_right _ (List.mem_singleton.mpr rfl)
  | some team =>
    have hno : team.team_no = t_.team_no := eq_of_beq (by simpa using List.find?_some hf)
    simp only [hf]
    split
    · next hl =>
      rw [← hno]
      exact (linkMemB_iff _ _ _).mp hl
    · rw [← hno]
      exact List.mem_append_right _ (List.mem_singleton.mpr rfl)

theorem add_fold0_link_new (cd : String) (ts : List TbaTeam) (db : DB)
    (t_ : TbaTeam) (h : t_ ∈ ts) :
    (t_.team_no, cd) ∈ (ts.foldl (add_roster_team cd) ([], db)).2.team_event := by
  induction ts generalizing db with
  | nil => cases h
  | cons u ts ih =>
    rw [List.foldl_cons, add_fold_append cd ts _ _]
    simp only
    rcases List.mem_cons.mp h with h1 | h1
    · subst h1
      exact add_fold0_link_mono cd ts _ _ _ (add_step_link_new cd db t_)
    · exact ih _ h1

theorem add_step_link_sub (cd : String) (db : DB) (t_ : TbaTeam)
    (tn : Nat) (ecd : String)
    (h : (tn, ecd) ∈ (add_roster_team cd ([], db) t_).2.team_event) :
    (tn, ecd) ∈ db.team_event ∨ (tn = t_.team_no ∧ ecd = cd) := by
  unfold add_roster_team at h
  dsimp only at h
  cases hf : db.teams.find? (fun x => x.team_no == t_.team_no) with
  | none =>
    rw [hf] at h
    dsimp only at h
    split at h
    · exact Or.inl h
    · rcases List.mem_append.mp h with h1 | h1
      · exact Or.inl h1
      · right
        have := List.mem_singleton.mp h1
        exact ⟨congrArg Prod.fst this, congrArg Prod.snd this⟩
  | some team =>
    have hno : team.team_no = t_.team_no := eq_of_beq (by simpa using List.find?_some hf)
    rw [hf] at h
    dsimp only at h
    split at h
    · exact Or.inl h
    · rcases List.mem_append.mp h with h1 | h1
      · exact Or.inl h1
      · right
        have := List.mem_singleton.mp h1
        refine ⟨?_, congrArg Prod.snd this⟩
        rw [← hno]
        exact congrArg Prod.fst this

theorem add_fold0_link_sub (cd : String) (ts : List TbaTeam) (db : DB)
    (tn : Nat) (ecd : String)
    (h : (tn, ecd) ∈ (ts.foldl (add_roster_team cd) ([], db)).2.team_event) :
    (tn, ecd) ∈ db.team_event ∨ (∃ t_ ∈ ts, tn = t_.team_no ∧ ecd = cd) := by
  induction ts generalizing db with
  | nil => exact Or.inl h
  | cons u ts ih =>
    rw [List.foldl_cons, add_fold_append cd ts _ _] at h
    simp only at h
    rcases ih _ h with h1 | h1
    · rcases add_step_link_sub cd db u tn ecd h1 with h2 | h2
      · exact Or.inl h2
      · exact Or.inr ⟨u, List.mem_cons_self u ts, h2⟩
    · obtain ⟨t_, ht1, ht2⟩ := h1
      exact Or.inr ⟨t_, List.mem_cons_of_mem u ht1, ht2⟩

theorem add_step_teams_sub (cd : String) (db : DB) (t_ : TbaTeam)
    (t : Team) (h : t ∈ (add_roster_team cd ([], db) t_).2.teams) :
    t ∈ db.teams ∨ t.team_no = t_.team_no := by
  unfold add_roster_team at h
  dsimp only at h
  cases hf : db.teams.find? (fun x => x.team_no == t_.team_no) with
  | some team =>
    rw [hf] at h
    dsimp only at h
    split at h <;> exact Or.inl h
  | none =>
    rw [hf] at h
    dsimp only at h
    split at h <;>
      · rcases List.mem_append.mp h with h1 | h1
        · exact Or.inl h1
        · right
          rw [List.mem_singleton.mp h1]

theorem add_fold0_teams_sub (cd : String) (ts : List TbaTeam) (db : DB)
    (t : Team) (h : t ∈ (ts.foldl (add_roster_team cd) ([], db)).2.teams) :
    t ∈ db.teams ∨ ∃ t_ ∈ ts, t.team_no = t_.team_no := by
  induction ts generalizing db with
  | nil => exact Or.inl h
  | cons u ts ih =>
    rw [List.foldl_cons, add_fold_append cd ts _ _] at h
    simp only at h
    rcases ih _ h with h1 | h1
    · rcases add_step_teams_sub cd db u t h1 with h2 | h2
      · exact Or.inl h2
      · exact Or.inr ⟨u, List.mem_cons_self u ts, h2⟩
    · obtain ⟨t_, ht1, ht2⟩ := h1
      exact Or.inr ⟨t_, List.mem_cons_of_mem u ht1, ht2⟩

theorem add_fold0_record_isSome (cd : String) (ts : List TbaTeam) (db : DB)
    (t_ : TbaTeam) (h : t_ ∈ ts) :
    ((ts.foldl (add_roster_team cd) ([], db)).2.teams.find?
      (fun x => x.team_no == t_.team_no)).isSome := by
  induction ts generalizing db with
  | nil => cases h
  | cons u ts ih =>
    rw [List.foldl_cons, add_fold_append cd ts _ _]
    simp only
    rcases List.mem_cons.mp h with h1 | h1
    · subst h1
      have hstep : ∃ t, (add_roster_team cd ([], db) t_).2.teams.find?
          (fun x => x.team_no == t_.team_no) = some t := by
        unfold add_roster_team
        cases hf : db.teams.find? (fun x => x.team_no == t_.team_no) with
        | some team => exact ⟨team, by simp only [hf]; split <;> exact hf⟩
        | none =>
          refine ⟨{ team_no := t_.team_no, team_nm := t_.team_nm, void_ind := "n" }, ?_⟩
          simp only [hf]
          split <;>
            · show (db.teams ++ _).find? _ = _
              rw [List.find?_append, hf]
              simp
      obtain ⟨t, ht⟩ := hstep
      rw [add_fold0_find?_preserved cd ts _ _ t ht]
      rfl
    · exact ih _ h1

theorem add_fold0_noop (cd : String) (ts : List TbaTeam) (ls : List Line) (db : DB)
    (h : ∀ t_ ∈ ts,
      ((db.teams.find? (fun x => x.team_no == t_.team_no)).isSome ∧
        (t_.team_no, cd) ∈ db.team_event)) :
    ts.foldl (add_roster_team cd) (ls, db) = (ls ++ noAddLines cd ts, db) := by
  induction ts generalizing ls with
  | nil => simp [noAddLines]
  | cons u ts ih =>
    obtain ⟨h1, h2⟩ := h u (List.mem_cons_self u ts)
    obtain ⟨team, hteam⟩ := Option.isSome_iff_exists.mp h1
    have hno : team.team_no = u.team_no := eq_of_beq (by simpa using List.find?_some hteam)
    have hstep : add_roster_team cd (ls, db) u =
        (ls ++ [Line.noAddTeam u.team_no u.team_nm, Line.linkTeam u.team_no u.team_nm cd],
         db) := by
      unfold add_roster_team
      dsimp only
      rw [hteam]
      dsimp only
      have hl : linkMemB db.team_event team.team_no cd = true := by
        rw [linkMemB_iff, hno]
        exact h2
      rw [hl]
      simp
    rw [List.foldl_cons, hstep,
      ih _ (fun t_ ht => h t_ (List.mem_cons_of_mem u ht))]
    simp [noAddLines, List.append_assoc]

theorem sync_event_unfold (s : Nat) (d : EventData) (ts : List TbaTeam) (db : DB) :
    sync_event s d ts db =
      ((event_upsert s d db).2.2 ::
        (remove_dropped_teams d.event_cd (ts.map (fun t => t.team_no))
          (event_upsert s d db).2.1).1 ++
        (ts.foldl (add_roster_team d.event_cd)
          ([], (remove_dropped_teams d.event_cd (ts.map (fun t => t.team_no))
            (event_upsert s d db).2.1).2)).1,
       (ts.foldl (add_roster_team d.event_cd)
          ([], (remove_dropped_teams d.event_cd (ts.map (fun t => t.team_no))
            (event_upsert s d db).2.1).2)).2) := rfl

theorem remove_dropped_teams_eq (cd : String) (roster : List Nat) (db : DB) :
    remove_dropped_teams cd roster db =
      (db.teams.filter
        (fun t => !(roster.contains t.team_no) && linkMemB db.team_event t.team_no cd)).foldl
        (remove_team_link cd) ([], db) := rfl

theorem remove_dropped_teams_db (cd : String) (roster : List Nat) (db : DB) :
    (remove_dropped_teams cd roster db).2 =
      { db with
        team_event := db.team_event.filter (fun l => !((db.teams.filter (fun t => !(roster.contains t.team_no) && linkMemB db.team_event t.team_no cd)).any (fun t => l.1 == t.team_no && l.2 == cd))) } := by
  rw [remove_dropped_teams_eq, remove_fold_db]

theorem sync_event_db_events (s : Nat) (d : EventData) (ts : List TbaTeam) (db : DB) :
    (sync_event s d ts db).2.events = (event_upsert s d db).2.1.events := by
  rw [sync_event_unfold]
  show (ts.foldl (add_roster_team d.event_cd) _).2.events = _
  rw [add_fold0_shape]
  show (remove_dropped_teams d.event_cd (ts.map (fun t => t.team_no))
    (event_upsert s d db).2.1).2.events = _
  rw [remove_dropped_teams_db]

theorem event_upsert_season_of_found (s : Nat) (d : EventData) (db : DB) (ev : Event)
    (h : db.events.find? (fun x => x.event_cd == d.event_cd) = some ev) :
    (event_upsert s d db).1.season = ev.season := by
  unfold event_upsert
  rw [event_get_or_create_of_found s d db ev h]
  rfl

/-- C10: when an event row already exists under the looked-up event code,
`sync_event` leaves its season reference unchanged: the season is
assigned only on the creation branch, never on the update branch. -/
theorem C10_sync_event_preserves_season (s : Nat) (d : EventData) (ts : List TbaTeam)
    (db0 : DB) (ev : Event)
    (h : db0.events.find? (fun x => x.event_cd == d.event_cd) = some ev) :
    ∃ ev',
      (sync_event s d ts db0).2.events.find? (fun x => x.event_cd == d.event_cd) =
        some ev' ∧
      ev'.season = ev.season := by
  refine ⟨(event_upsert s d db0).1, ?_, event_upsert_season_of_found s d db0 ev h⟩
  rw [sync_event_db_events]
  exact event_upsert_find? s d db0

/-- C2: for an event whose locally linked team set is `{a, b, c}` and
whose reported roster is `{b, c, d}` (with `a` outside the roster and all
of `a`, `b`, `c` backed by Team rows), `sync_event` removes the link from
`a` to the event, adds links for `d` (and keeps `b`, `c` linked), and
leaves the Team rows of `b` and `c` untouched. -/
theorem C2_sync_event_reconciliation
    (s : Nat) (d : EventData) (db0 : DB)
    (a b c dnew : Nat) (nb nc nd : String)
    (hab : a ≠ b) (hac : a ≠ c) (had : a ≠ dnew)
    (hset : ∀ tn : Nat, (tn, d.event_cd) ∈ db0.team_event ↔ (tn = a ∨ tn = b ∨ tn = c))
    (hta : ∃ t ∈ db0.teams, t.team_no = a)
    (htb : (db0.teams.find? (fun x => x.team_no == b)).isSome = true)
    (htc : (db0.teams.find? (fun x => x.team_no == c)).isSome = true) :
    ((a, d.event_cd) ∉
      (sync_event s d [⟨b, nb⟩, ⟨c, nc⟩, ⟨dnew, nd⟩] db0).2.team_event) ∧
    ((dnew, d.event_cd) ∈
      (sync_event s d [⟨b, nb⟩, ⟨c, nc⟩, ⟨dnew, nd⟩] db0).2.team_event) ∧
    ((b, d.event_cd) ∈
      (sync_event s d [⟨b, nb⟩, ⟨c, nc⟩, ⟨dnew, nd⟩] db0).2.team_event) ∧
    ((c, d.event_cd) ∈
      (sync_event s d [⟨b, nb⟩, ⟨c, nc⟩, ⟨dnew, nd⟩] db0).2.team_event) ∧
    ((sync_event s d [⟨b, nb⟩, ⟨c, nc⟩, ⟨dnew, nd⟩] db0).2.teams.find?
        (fun x => x.team_no == b) = db0.teams.find? (fun x => x.team_no == b)) ∧
    ((sync_event s d [⟨b, nb⟩, ⟨c, nc⟩, ⟨dnew, nd⟩] db0).2.teams.find?
        (fun x => x.team_no == c) = db0.teams.find? (fun x => x.team_no == c)) := by
  have hup : (event_upsert s d db0).2.1.teams = db0.teams := by
    rw [event_upsert_db_shape]
  have hupte : (event_upsert s d db0).2.1.team_event = db0.team_event := by
    rw [event_upsert_db_shape]
  have hres : (sync_event s d [⟨b, nb⟩, ⟨c, nc⟩, ⟨dnew, nd⟩] db0).2 =
      (([⟨b, nb⟩, ⟨c, nc⟩, ⟨dnew, nd⟩] : List TbaTeam).foldl
        (add_roster_team d.event_cd)
        ([], (remove_dropped_teams d.event_cd [b, c, dnew]
          (event_upsert s d db0).2.1).2)).2 := by
    rw [sync_event_unfold]
    dsimp only [List.map_cons, List.map_nil]
  have hRteams : (remove_dropped_teams d.event_cd [b, c, dnew]
      (event_upsert s d db0).2.1).2.teams = db0.teams := by
    rw [remove_dropped_teams_db]
    exact hup
  have hRte : ∀ tn : Nat, ∀ ecd : String,
      (tn, ecd) ∈ (remove_dropped_teams d.event_cd [b, c, dnew]
        (event_upsert s d db0).2.1).2.team_event ↔
      ((tn, ecd) ∈ db0.team_event ∧
        (((event_upsert s d db0).2.1.teams.filter
          (fun t => !(([b, c, dnew] : List Nat).contains t.team_no) &&
            linkMemB (event_upsert s d db0).2.1.team_event t.team_no d.event_cd)).any
          (fun t => tn == t.team_no && ecd == d.event_cd)) = false) := by
    intro tn ecd
    rw [remove_dropped_teams_db]
    show (tn, ecd) ∈ (event_upsert s d db0).2.1.team_event.filter _ ↔ _
    rw [List.mem_filter, hupte]
    constructor
    · rintro ⟨h1, h2⟩
      exact ⟨h1, by simpa using h2⟩
    · rintro ⟨h1, h2⟩
      exact ⟨h1, by simpa using h2⟩
  constructor
  · -- the link from a is removed and not re-added
    intro hmem
    rw [hres] at hmem
    rcases add_fold0_link_sub d.event_cd _ _ a d.event_cd hmem with h1 | h1
    · -- a's link would have to survive the removal loop
      rw [hRte a d.event_cd] at h1
      obtain ⟨hmem0, hany⟩ := h1
      obtain ⟨ta, hta_mem, hta_no⟩ := hta
      have hta_rem : ta ∈ (event_upsert s d db0).2.1.teams.filter
          (fun t => !(([b, c, dnew] : List Nat).contains t.team_no) &&
            linkMemB (event_upsert s d db0).2.1.team_event t.team_no d.event_cd) := by
        rw [List.mem_filter]
        refine ⟨by rw [hup]; exact hta_mem, ?_⟩
        rw [hta_no]
        have hcont : (([b, c, dnew] : List Nat).contains a) = false := by
          simp [hab, hac, had]
        rw [hcont, hupte]
        have : linkMemB db0.team_event a d.event_cd = true := by
          rw [linkMemB_iff]
          exact (hset a).mpr (Or.inl rfl)
        rw [this]
        rfl
      have := List.any_eq_false.mp hany ta hta_rem
      apply this
      rw [hta_no]
      simp
    · -- a is not in the reported roster
      obtain ⟨t_, ht_mem, ht_eq, _⟩ := h1
      simp only [List.mem_cons, List.not_mem_nil, or_false] at ht_mem
      rcases ht_mem with h' | h' | h'
      · rw [h'] at ht_eq
        exact hab ht_eq
      · rw [h'] at ht_eq
        exact hac ht_eq
      · rw [h'] at ht_eq
        exact had ht_eq
  refine ⟨?_, ?_, ?_, ?_, ?_⟩
  · rw [hres]
    exact add_fold0_link_new d.event_cd _ _ ⟨dnew, nd⟩ (by simp)
  · rw [hres]
    exact add_fold0_link_new d.event_cd _ _ ⟨b, nb⟩ (by simp)
  · rw [hres]
    exact add_fold0_link_new d.event_cd _ _ ⟨c, nc⟩ (by simp)
  · obtain ⟨tb, htb'⟩ := Option.isSome_iff_exists.mp htb
    rw [hres, add_fold0_find?_preserved d.event_cd _ _ b tb (by rw [hRteams]; exact htb'),
      htb']
  · obtain ⟨tc, htc'⟩ := Option.isSome_iff_exists.mp htc
    rw [hres, add_fold0_find?_preserved d.event_cd _ _ c tc (by rw [hRteams]; exact htc'),
      htc']

theorem roster_contains_iff (ts : List TbaTeam) (n : Nat) :
    ((ts.map (fun u => u.team_no)).contains n) = true ↔ ∃ t_ ∈ ts, n = t_.team_no := by
  rw [List.elem_iff, List.mem_map]
  constructor
  · rintro ⟨t_, ht, heq⟩
    exact ⟨t_, ht, heq.symm⟩
  · rintro ⟨t_, ht, heq⟩
    exact ⟨t_, ht, heq.symm⟩

theorem saveEvent_all_fixed (db : DB) (e : Event) :
    ∀ x ∈ (saveEvent db e).events, (x.event_cd == e.event_cd) = true → x = e := by
  unfold saveEvent
  intro x hx hcd
  rcases List.mem_map.mp hx with ⟨y, hy, hxy⟩
  by_cases hyc : (y.event_cd == e.event_cd) = true
  · rw [← hxy]
    simp [hyc]
  · have hyc' : (y.event_cd == e.event_cd) = false := by simpa using hyc
    rw [← hxy] at hcd
    rw [hyc'] at hcd
    simp at hcd
    exact absurd hcd (by simpa using hyc')

theorem saveEvent_fix (db : DB) (e : Event)
    (hall : ∀ x ∈ db.events, (x.event_cd == e.event_cd) = true → x = e) :
    saveEvent db e = db := by
  unfold saveEvent
  have hmap : db.events.map (fun x => if x.event_cd == e.event_cd then e else x) =
      db.events := by
    conv_rhs => rw [← List.map_id db.events]
    apply List.map_congr_left
    intro x hx
    by_cases hc : (x.event_cd == e.event_cd) = true
    · simp [hc, (hall x hx hc).symm]
    · have hc' : (x.event_cd == e.event_cd) = false := by simpa using hc
      simp [hc']
  rw [hmap]

theorem event_upsert_all_fixed (s : Nat) (d : EventData) (db : DB) :
    ∀ x ∈ (event_upsert s d db).2.1.events, (x.event_cd == d.event_cd) = true →
      x = (event_upsert s d db).1 := by
  have hcd := event_upsert_event_cd s d db
  intro x hx hxcd
  have hsv : (event_upsert s d db).2.1 =
      saveEvent (event_get_or_create s d db).2.1 (event_upsert s d db).1 := rfl
  rw [hsv] at hx
  apply saveEvent_all_fixed _ _ x hx
  rw [hcd]
  exact hxcd

theorem event_upsert_noop (s : Nat) (d : EventData) (db : DB) (e1 : Event)
    (hfind : db.events.find? (fun x => x.event_cd == d.event_cd) = some e1)
    (hall : ∀ x ∈ db.events, (x.event_cd == d.event_cd) = true → x = e1)
    (hvoid : e1.void_ind = "n") (hst : e1.date_st = d.date_st)
    (hend : e1.date_end = d.date_end)
    (hnm : e1.event_nm = d.event_nm) (hurl : e1.event_url = d.event_url)
    (haddr : e1.address = d.address) (hcity : e1.city = d.city)
    (hsp : e1.state_prov = d.state_prov) (hpc : e1.postal_code = d.postal_code)
    (hln : e1.location_name = d.location_name) (hgm : e1.gmaps_url = d.gmaps_url)
    (hwc : e1.webcast_url = d.webcast_url) (htz : e1.timezone = d.timezone) :
    event_upsert s d db = (e1, db, Line.noAddEvent d.event_cd) := by
  have he1cd : e1.event_cd = d.event_cd := eq_of_beq (by simpa using List.find?_some hfind)
  have hfix : event_fields_update d
      { e1 with void_ind := "n", date_st := d.date_st, date_end := d.date_end } = e1 := by
    unfold event_fields_update
    cases e1
    simp_all
  have hall' : ∀ x ∈ db.events, (x.event_cd == e1.event_cd) = true → x = e1 := by
    intro x hx hxc
    apply hall x hx
    rw [← he1cd]
    exact hxc
  unfold event_upsert
  rw [event_get_or_create_of_found s d db e1 hfind]
  dsimp only
  rw [hfix, saveEvent_fix db e1 hall']

theorem sync_event_db_eq (s : Nat) (d : EventData) (ts : List TbaTeam) (db : DB) :
    (sync_event s d ts db).2 =
      (ts.foldl (add_roster_team d.event_cd)
        ([], (remove_dropped_teams d.event_cd (ts.map (fun t => t.team_no))
          (event_upsert s d db).2.1).2)).2 := by
  rw [sync_event_unfold]

/-- Applying `sync_event` a second time with the same data is a no-op on
the state: the second run reports `(NO ADD)` for the event, removes
nothing, and reports `(NO ADD)`/`(LINK)` for every roster team. -/
theorem sync_event_idem (s : Nat) (d : EventData) (ts : List TbaTeam) (db0 : DB) :
    sync_event s d ts ((sync_event s d ts db0).2) =
      (Line.noAddEvent d.event_cd :: noAddLines d.event_cd ts,
       (sync_event s d ts db0).2) := by
  have hup21te : (event_upsert s d db0).2.1.team_event = db0.team_event := by
    rw [event_upsert_db_shape]
  have hres0 := sync_event_db_eq s d ts db0
  have hev : (sync_event s d ts db0).2.events = (event_upsert s d db0).2.1.events :=
    sync_event_db_events s d ts db0
  have hRteams : (remove_dropped_teams d.event_cd (ts.map (fun t => t.team_no))
      (event_upsert s d db0).2.1).2.teams = (event_upsert s d db0).2.1.teams := by
    rw [remove_dropped_teams_db]
  -- facts about the state after the first run
  have hfind1 : (sync_event s d ts db0).2.events.find?
      (fun x => x.event_cd == d.event_cd) = some (event_upsert s d db0).1 := by
    rw [hev]
    exact event_upsert_find? s d db0
  have hall1 : ∀ x ∈ (sync_event s d ts db0).2.events,
      (x.event_cd == d.event_cd) = true → x = (event_upsert s d db0).1 := by
    intro x hx
    rw [hev] at hx
    exact event_upsert_all_fixed s d db0 x hx
  obtain ⟨hvoid, hst, hend⟩ := event_upsert_fixed_fields s d db0
  have hnoop1 : event_upsert s d ((sync_event s d ts db0).2) =
      ((event_upsert s d db0).1, (sync_event s d ts db0).2,
        Line.noAddEvent d.event_cd) :=
    event_upsert_noop s d _ _ hfind1 hall1 hvoid hst hend rfl rfl rfl rfl rfl rfl rfl rfl rfl rfl
  -- the removal queryset of the second run is empty
  have hforall : ∀ t ∈ (sync_event s d ts db0).2.teams,
      ((ts.map (fun u => u.team_no)).contains t.team_no) = true ∨
        linkMemB (sync_event s d ts db0).2.team_event t.team_no d.event_cd = false := by
    intro t ht
    rw [hres0] at ht
    rcases add_fold0_teams_sub d.event_cd ts _ t ht with hR | ⟨t_, ht_, heq⟩
    · by_cases hcont : ((ts.map (fun u => u.team_no)).contains t.team_no) = true
      · exact Or.inl hcont
      · right
        rw [Bool.eq_false_iff]
        intro hlink
        have hmem := (linkMemB_iff _ _ _).mp hlink
        rw [hres0] at hmem
        rcases add_fold0_link_sub d.event_cd ts _ _ _ hmem with hRl | ⟨t_, ht_, heq1, _⟩
        · -- the surviving link contradicts the removal loop of the first run
          rw [remove_dropped_teams_db] at hRl
          have hRl' := List.mem_filter.mp hRl
          obtain ⟨h1, h2⟩ := hRl'
          have htup : t ∈ (event_upsert s d db0).2.1.teams := by
            rw [← hRteams]
            exact hR
          have htrem : t ∈ (event_upsert s d db0).2.1.teams.filter
              (fun u => !((ts.map (fun v => v.team_no)).contains u.team_no) &&
                linkMemB (event_upsert s d db0).2.1.team_event u.team_no d.event_cd) := by
            rw [List.mem_filter]
            refine ⟨htup, ?_⟩
            have hcont' : ((ts.map (fun v => v.team_no)).contains t.team_no) = false := by
              simpa using hcont
            rw [hcont']
            have hlk : linkMemB (event_upsert s d db0).2.1.team_event t.team_no
                d.event_cd = true := by
              rw [linkMemB_iff]
              exact h1
            rw [hlk]
            rfl
          rw [Bool.not_eq_true'] at h2
          have := List.any_eq_false.mp h2 t htrem
          apply this
          simp
        · apply hcont
          rw [roster_contains_iff]
          exact ⟨t_, ht_, heq1⟩
    · exact Or.inl ((roster_contains_iff ts t.team_no).mpr ⟨t_, ht_, heq⟩)
  have hnoop2 : remove_dropped_teams d.event_cd (ts.map (fun t => t.team_no))
      ((sync_event s d ts db0).2) = ([], (sync_event s d ts db0).2) :=
    remove_dropped_teams_noop _ _ _ hforall
  -- every roster team already has a row and a link
  have hF : ∀ t_ ∈ ts,
      (((sync_event s d ts db0).2.teams.find?
        (fun x => x.team_no == t_.team_no)).isSome = true ∧
       (t_.team_no, d.event_cd) ∈ (sync_event s d ts db0).2.team_event) := by
    intro t_ ht
    constructor
    · rw [hres0]
      exact add_fold0_record_isSome d.event_cd ts _ t_ ht
    · rw [hres0]
      exact add_fold0_link_new d.event_cd ts _ t_ ht
  have hnoop3 : ts.foldl (add_roster_team d.event_cd)
      ([], (sync_event s d ts db0).2) =
      ([] ++ noAddLines d.event_cd ts, (sync_event s d ts db0).2) :=
    add_fold0_noop d.event_cd ts [] _ hF
  rw [sync_event_unfold s d ts ((sync_event s d ts db0).2)]
  rw [hnoop1]
  dsimp only
  rw [hnoop2]
  dsimp only
  rw [hnoop3]
  simp

theorem exc_bind_ok {ε α β : Type} (a : α) (f : α → Except ε β) :
    (Except.ok a >>= f) = f a := rfl

theorem exc_bind_error {ε α β : Type} (e : ε) (f : α → Except ε β) :
    ((Except.error e : Except ε α) >>= f) = Except.error e := rfl

theorem match_fields_update_key (r : ResolvedMatch) (mt : Match) :
    (match_fields_update r mt).match_key = mt.match_key := rfl

theorem upsert_tba_match_shape (r : ResolvedMatch) (db : DB) :
    (upsert_tba_match r db).2 = { db with matchs := (upsert_tba_match r db).2.matchs } := by
  unfold upsert_tba_match
  cases h : db.matchs.find? (fun x => x.match_key == r.match_key) <;> simp [h]

theorem upsert_tba_match_idem (r : ResolvedMatch) (db : DB) :
    upsert_tba_match r ((upsert_tba_match r db).2) =
      ([Line.updateMatch r.event.event_nm r.comp_level.comp_lvl_typ_nm
        r.match_number r.match_key],
       (upsert_tba_match r db).2) := by
  unfold upsert_tba_match
  cases h : db.matchs.find? (fun x => x.match_key == r.match_key) with
  | some mt =>
    have hpmt : (mt.match_key == r.match_key) = true := by
      simpa using List.find?_some h
    have hpe : ((match_fields_update r mt).match_key == r.match_key) = true := by
      rw [match_fields_update_key]
      exact hpmt
    simp only [h]
    rw [find?_map_if (fun x : Match => x.match_key == r.match_key) (match_fields_update r mt) hpe db.matchs, h]
    simp only [Option.isSome_some, eq_self_iff_true, if_true]
    rw [show match_fields_update r (match_fields_update r mt) =
      match_fields_update r mt from rfl]
    rw [map_if_idem (fun x : Match => x.match_key == r.match_key) (match_fields_update r mt) hpe db.matchs]
  | none =>
    have hpe : ((newMatchRow r).match_key == r.match_key) = true := by
      show (r.match_key == r.match_key) = true
      simp
    simp only [h]
    have hf : (db.matchs ++ [newMatchRow r]).find? (fun x => x.match_key == r.match_key) =
        some (newMatchRow r) := by
      rw [List.find?_append, h]
      simp only [Option.or]
      rw [List.find?_cons]
      rw [hpe]
    rw [hf]
    dsimp only
    rw [show match_fields_update r (newMatchRow r) = newMatchRow r from rfl]
    rw [List.map_append, map_if_of_find?_none _ _ _ h]
    have : ([newMatchRow r].map
        (fun x => if x.match_key == r.match_key then newMatchRow r else x)) =
        [newMatchRow r] := by
      simp
    rw [this]

theorem resolve_tba_match_congr (m : TbaMatch) (db db' : DB)
    (he : db.events = db'.events) (ht : db.teams = db'.teams)
    (hc : db.comp_levels = db'.comp_levels) :
    resolve_tba_match m db = resolve_tba_match m db' := by
  unfold resolve_tba_match team_objects_get
  rw [he, hc]
  simp only [ht]

/-- Applying `save_tba_match` a second time with the same payload leaves
the state exactly as the first call left it and reports `(UPDATE)`. -/
theorem save_tba_match_idem (m : TbaMatch) (db0 db1 : DB) (l1 : List Line)
    (h : save_tba_match m db0 = Except.ok (l1, db1)) :
    ∃ r : ResolvedMatch, resolve_tba_match m db0 = Except.ok r ∧
      save_tba_match m db1 =
        Except.ok ([Line.updateMatch r.event.event_nm r.comp_level.comp_lvl_typ_nm
          r.match_number r.match_key], db1) := by
  unfold save_tba_match at h ⊢
  cases hr : resolve_tba_match m db0 with
  | error e =>
    rw [hr] at h
    cases h
  | ok r =>
    rw [hr] at h
    have hup : upsert_tba_match r db0 = (l1, db1) := Except.ok.inj h
    have hdb1 : db1 = (upsert_tba_match r db0).2 := by rw [hup]
    have hcong : resolve_tba_match m db1 = resolve_tba_match m db0 := by
      apply resolve_tba_match_congr m db1 db0
      · rw [hdb1, upsert_tba_match_shape]
      · rw [hdb1, upsert_tba_match_shape]
      · rw [hdb1, upsert_tba_match_shape]
    refine ⟨r, rfl, ?_⟩
    rw [hcong, hr]
    show Except.ok (upsert_tba_match r db1) = _
    rw [hdb1, upsert_tba_match_idem r db0]

theorem noAddLines_all (cd : String) (ts : List TbaTeam) :
    (noAddLines cd ts).all (fun x => !(x.isAddB)) = true := by
  induction ts with
  | nil => rfl
  | cons t ts ih =>
    show (Line.noAddTeam t.team_no t.team_nm :: Line.linkTeam t.team_no t.team_nm cd ::
      noAddLines cd ts).all (fun x => !(x.isAddB)) = true
    rw [List.all_cons, List.all_cons, ih]
    rfl

/-- C3: the synchronization upserts are idempotent.  Re-running
`sync_event` on the state its first run produced is a no-op on the state
(hence no second record appears for the event code), and the second
message opens with the `(NO ADD)` event line and contains no `(ADD)`
line at all; re-running `save_tba_match` on the state its first
successful run produced returns the same state (hence no second record
for the match key) and a message that reports `(UPDATE)`, not
`(ADD)`. -/
theorem C3_upsert_idempotent :
    (∀ (s : Nat) (d : EventData) (ts : List TbaTeam) (db0 : DB),
      sync_event s d ts ((sync_event s d ts db0).2) =
        (Line.noAddEvent d.event_cd :: noAddLines d.event_cd ts,
         (sync_event s d ts db0).2) ∧
      (Line.noAddEvent d.event_cd :: noAddLines d.event_cd ts).all
        (fun x => !(x.isAddB)) = true) ∧
    (∀ (m : TbaMatch) (db0 db1 : DB) (l1 : List Line),
      save_tba_match m db0 = Except.ok (l1, db1) →
      ∃ l2 : List Line, save_tba_match m db1 = Except.ok (l2, db1) ∧
        l2.all (fun x => !(x.isAddB)) = true ∧
        l2.any (fun x => x.isUpdateMatchB) = true) := by
  constructor
  · intro s d ts db0
    refine ⟨sync_event_idem s d ts db0, ?_⟩
    rw [List.all_cons, noAddLines_all d.event_cd ts]
    rfl
  · intro m db0 db1 l1 h
    obtain ⟨r, hres, hsave⟩ := save_tba_match_idem m db0 db1 l1 h
    exact ⟨_, hsave, by simp [Line.isAddB], by simp [Line.isUpdateMatchB]⟩

theorem renderLines_append_one (ls : List Line) (x : Line) :
    renderLines (ls ++ [x]) = renderLines ls ++ x.render := by
  induction ls with
  | nil => simp [renderLines]
  | cons a ls ih =>
    show a.render ++ renderLines (ls ++ [x]) = a.render ++ renderLines ls ++ x.render
    rw [ih, String.append_assoc]

theorem sync_matches_loop_error (enm : String) (pre post : List TbaMatch)
    (bad : TbaMatch) (db0 db1 : DB) (l1 : List Line) (err : PyErr)
    (hpre : runMatchesOk pre db0 = some (l1, db1))
    (hbad : save_tba_match bad db1 = Except.error err) :
    sync_matches_loop enm (pre ++ bad :: post) db0 =
      (l1 ++ [Line.errorLine enm (bad.match_number.getD 0) (pyErrStr err)], db1) := by
  induction pre generalizing db0 l1 with
  | nil =>
    unfold runMatchesOk at hpre
    have h2 := Option.some.inj hpre
    have hl : ([] : List Line) = l1 := congrArg Prod.fst h2
    have hd : db0 = db1 := congrArg Prod.snd h2
    subst hd
    rw [List.nil_append]
    unfold sync_matches_loop
    rw [hbad]
    rw [← hl]
    rw [List.nil_append]
  | cons m pre ih =>
    unfold runMatchesOk at hpre
    cases hm : save_tba_match m db0 with
    | error e =>
      rw [hm] at hpre
      cases hpre
    | ok rq =>
      rw [hm] at hpre
      dsimp only at hpre
      cases hq : runMatchesOk pre rq.2 with
      | none =>
        rw [hq] at hpre
        cases hpre
      | some q =>
        rw [hq] at hpre
        have h2 := Option.some.inj hpre
        have hl : rq.1 ++ q.1 = l1 := congrArg Prod.fst h2
        have hd : q.2 = db1 := congrArg Prod.snd h2
        show sync_matches_loop enm (m :: (pre ++ bad :: post)) db0 = _
        unfold sync_matches_loop
        rw [hm]
        dsimp only
        have hq' : runMatchesOk pre rq.2 = some (q.1, db1) := by
          rw [hq, ← hd]
        rw [ih rq.2 q.1 hq']
        rw [← hl, List.append_assoc]

/-- C4: when saving the i-th fetched match raises, `sync_matches`
processes no later match, keeps the effects of the earlier matches, does
not propagate the exception, and returns the accumulated message with an
`(ERROR)` line holding the exception text appended. -/
theorem C4_sync_matches_error (ev : Event) (pre post : List TbaMatch) (bad : TbaMatch)
    (db0 db1 : DB) (l1 : List Line) (err : PyErr)
    (hpre : runMatchesOk pre db0 = some (l1, db1))
    (hbad : save_tba_match bad db1 = Except.error err) :
    sync_matches ev (pre ++ bad :: post) db0 =
      (l1 ++ [Line.errorLine ev.event_nm (bad.match_number.getD 0) (pyErrStr err)], db1) ∧
    renderLines (sync_matches ev (pre ++ bad :: post) db0).1 =
      renderLines l1 ++
        ("(ERROR) " ++ ev.event_nm ++ " " ++ toString (bad.match_number.getD 0) ++ " " ++
          pyErrStr err ++ "\n") := by
  have hmain : sync_matches ev (pre ++ bad :: post) db0 =
      (l1 ++ [Line.errorLine ev.event_nm (bad.match_number.getD 0) (pyErrStr err)], db1) :=
    sync_matches_loop_error ev.event_nm pre post bad db0 db1 l1 err hpre hbad
  refine ⟨hmain, ?_⟩
  rw [hmain]
  show renderLines (l1 ++ [Line.errorLine ev.event_nm (bad.match_number.getD 0)
    (pyErrStr err)]) = _
  rw [renderLines_append_one]
  rfl

/-- C4 witness: with one malformed match (unknown team 7) in the fetched
list, `sync_matches` returns normally with the `(ERROR)` line and the
untouched state. -/
theorem C4_witness :
    sync_matches c2ev ([] ++ c4bad :: []) c5db =
      ([] ++ [Line.errorLine c2ev.event_nm (c4bad.match_number.getD 0)
        (pyErrStr (PyErr.doesNotExist "Team"))], c5db) :=
  (C4_sync_matches_error c2ev [] [] c4bad c5db c5db [] (PyErr.doesNotExist "Team")
    rfl (by decide)).1

theorem team_objects_get_ok (db : DB) (k : String) (t : Team)
    (h : team_objects_get db k = Except.ok t) :
    teamExistsActive db t.team_no = true := by
  unfold team_objects_get at h
  cases hn : pyToNat? (replace_frc_in_str k) with
  | none =>
    rw [hn] at h
    cases h
  | some n =>
    rw [hn] at h
    dsimp only at h
    cases hf : db.teams.find? (fun x => x.team_no == n && x.void_ind == "n") with
    | none =>
      rw [hf] at h
      cases h
    | some t' =>
      rw [hf] at h
      have ht : t' = t := Except.ok.inj h
      subst ht
      have hp : (t'.team_no == n && t'.void_ind == "n") = true := by
        simpa using List.find?_some hf
      unfold teamExistsActive
      rw [List.any_eq_true]
      refine ⟨t', List.mem_of_find?_eq_some hf, ?_⟩
      rw [Bool.and_eq_true]
      exact ⟨by simp, ((Bool.and_eq_true _ _) ▸ hp).2⟩

theorem exc_ok_of_bind_ok {ε α β : Type} (x : Except ε α) (f : α → Except ε β) (b : β)
    (h : (x >>= f) = Except.ok b) : ∃ a, x = Except.ok a ∧ f a = Except.ok b := by
  cases x with
  | error e =>
    rw [exc_bind_error] at h
    cases h
  | ok a => exact ⟨a, rfl, h⟩

theorem resolve_tba_match_ok_facts (m : TbaMatch) (db : DB) (r : ResolvedMatch)
    (h : resolve_tba_match m db = Except.ok r) :
    r.match_key = m.key ∧
    teamExistsActive db r.red_one.team_no = true ∧
    teamExistsActive db r.red_two.team_no = true ∧
    teamExistsActive db r.red_three.team_no = true ∧
    teamExistsActive db r.blue_one.team_no = true ∧
    teamExistsActive db r.blue_two.team_no = true ∧
    teamExistsActive db r.blue_three.team_no = true := by
  unfold resolve_tba_match at h
  obtain ⟨event, hE, h⟩ := exc_ok_of_bind_ok _ _ _ h
  try dsimp only at h
  obtain ⟨k1, hK1, h⟩ := exc_ok_of_bind_ok _ _ _ h
  try dsimp only at h
  obtain ⟨t1, hT1, h⟩ := exc_ok_of_bind_ok _ _ _ h
  try dsimp only at h
  obtain ⟨k2, hK2, h⟩ := exc_ok_of_bind_ok _ _ _ h
  try dsimp only at h
  obtain ⟨t2, hT2, h⟩ := exc_ok_of_bind_ok _ _ _ h
  try dsimp only at h
  obtain ⟨k3, hK3, h⟩ := exc_ok_of_bind_ok _ _ _ h
  try dsimp only at h
  obtain ⟨t3, hT3, h⟩ := exc_ok_of_bind_ok _ _ _ h
  try dsimp only at h
  obtain ⟨k4, hK4, h⟩ := exc_ok_of_bind_ok _ _ _ h
  try dsimp only at h
  obtain ⟨t4, hT4, h⟩ := exc_ok_of_bind_ok _ _ _ h
  try dsimp only at h
  obtain ⟨k5, hK5, h⟩ := exc_ok_of_bind_ok _ _ _ h
  try dsimp only at h
  obtain ⟨t5, hT5, h⟩ := exc_ok_of_bind_ok _ _ _ h
  try dsimp only at h
  obtain ⟨k6, hK6, h⟩ := exc_ok_of_bind_ok _ _ _ h
  try dsimp only at h
  obtain ⟨t6, hT6, h⟩ := exc_ok_of_bind_ok _ _ _ h
  try dsimp only at h
  obtain ⟨cl, hCL, h⟩ := exc_ok_of_bind_ok _ _ _ h
  try dsimp only at h
  have hrec := Except.ok.inj h
  subst hrec
  exact ⟨rfl, team_objects_get_ok db k1 t1 hT1, team_objects_get_ok db k2 t2 hT2,
    team_objects_get_ok db k3 t3 hT3, team_objects_get_ok db k4 t4 hT4,
    team_objects_get_ok db k5 t5 hT5, team_objects_get_ok db k6 t6 hT6⟩

/-- C5 (amended): every match row created or updated by a successful
`save_tba_match` has its six team slots referencing Team rows that exist
with a clear void indicator at save time; the function checks nothing
beyond that — in particular it does not check that the teams are linked
to the match's event's season. -/
theorem C5_match_slots_amended (m : TbaMatch) (db : DB) (l : List Line) (db' : DB)
    (h : save_tba_match m db = Except.ok (l, db')) :
    ∃ mt : Match,
      db'.matchs.find? (fun x => x.match_key == m.key) = some mt ∧
      teamExistsActive db mt.red_one = true ∧
      teamExistsActive db mt.red_two = true ∧
      teamExistsActive db mt.red_three = true ∧
      teamExistsActive db mt.blue_one = true ∧
      teamExistsActive db mt.blue_two = true ∧
      teamExistsActive db mt.blue_three = true := by
  unfold save_tba_match at h
  cases hr : resolve_tba_match m db with
  | error e =>
    rw [hr] at h
    cases h
  | ok r =>
    rw [hr] at h
    have hup : upsert_tba_match r db = (l, db') := Except.ok.inj h
    obtain ⟨hkey, h1, h2, h3, h4, h5, h6⟩ := resolve_tba_match_ok_facts m db r hr
    have hdb' : db' = (upsert_tba_match r db).2 := by rw [hup]
    subst hdb'
    unfold upsert_tba_match
    cases hf : db.matchs.find? (fun x => x.match_key == r.match_key) with
    | some mt0 =>
      simp only [hf]
      refine ⟨match_fields_update r mt0, ?_, h1, h2, h3, h4, h5, h6⟩
      simp only [← hkey]
      rw [find?_map_if (fun x : Match => x.match_key == r.match_key)
        (match_fields_update r mt0)
        (by show ((match_fields_update r mt0).match_key == r.match_key) = true
            rw [match_fields_update_key]
            simpa using List.find?_some hf) db.matchs, hf]
      rfl
    | none =>
      simp only [hf]
      refine ⟨newMatchRow r, ?_, h1, h2, h3, h4, h5, h6⟩
      simp only [← hkey]
      show (db.matchs ++ [newMatchRow r]).find? (fun x => x.match_key == r.match_key) =
        some (newMatchRow r)
      rw [List.find?_append, hf]
      simp only [Option.or]
      rw [List.find?_cons]
      have hpe : ((newMatchRow r).match_key == r.match_key) = true := by
        show (r.match_key == r.match_key) = true
        simp
      rw [hpe]

/-- C5 counterexample: in `c5db`, teams 1..6 exist but no team is linked
to any event, so no slot of the saved match references a team linked to
the event's season — yet `save_tba_match` succeeds and creates the
match. -/
theorem C5_counterexample :
    (save_tba_match c5m c5db).isOk = true ∧
    ((save_tba_match c5m c5db).toOption.map
      (fun p => p.2.matchs.all (fun mt => matchSlotsLinkedB p.2 mt))) = some false := by
  constructor
  · decide
  · decide

/-- C5 witness: at the concrete input the saved match's slots all
reference existing non-void teams. -/
theorem C5_witness :
    ∃ mt : Match,
      c5res.2.matchs.find? (fun x => x.match_key == c5m.key) = some mt ∧
      teamExistsActive c5db mt.red_one = true ∧
      teamExistsActive c5db mt.red_two = true ∧
      teamExistsActive c5db mt.red_three = true ∧
      teamExistsActive c5db mt.blue_one = true ∧
      teamExistsActive c5db mt.blue_two = true ∧
      teamExistsActive c5db mt.blue_three = true :=
  C5_match_slots_amended c5m c5db c5res.1 c5res.2 (by decide)

/-- C10 witness: syncing event data for an already-existing event row
keeps its season reference. -/
theorem C10_witness :
    ∃ ev', (sync_event 7 c2d [⟨2, "B"⟩] c2db).2.events.find?
        (fun x => x.event_cd == c2d.event_cd) = some ev' ∧
      ev'.season = c2ev.season :=
  C10_sync_event_preserves_season 7 c2d [⟨2, "B"⟩] c2db c2ev (by decide)

/-- C2 witness: at a concrete state with linked teams 1, 2, 3 and
reported roster 2, 3, 4, the link of team 1 is removed and team 4 is
linked. -/
theorem C2_witness :
    ((1, c2d.event_cd) ∉
      (sync_event 7 c2d [⟨2, "B"⟩, ⟨3, "C"⟩, ⟨4, "D"⟩] c2db).2.team_event) ∧
    ((4, c2d.event_cd) ∈
      (sync_event 7 c2d [⟨2, "B"⟩, ⟨3, "C"⟩, ⟨4, "D"⟩] c2db).2.team_event) :=
  ⟨(C2_sync_event_reconciliation 7 c2d c2db 1 2 3 4 "B" "C" "D"
      (by decide) (by decide) (by decide) (by intro tn; simp [c2db, c2d])
      ⟨⟨1, "A", "n"⟩, by simp [c2db], rfl⟩ (by decide) (by decide)).1,
   (C2_sync_event_reconciliation 7 c2d c2db 1 2 3 4 "B" "C" "D"
      (by decide) (by decide) (by decide) (by intro tn; simp [c2db, c2d])
      ⟨⟨1, "A", "n"⟩, by simp [c2db], rfl⟩ (by decide) (by decide)).2.1⟩

end Tba
